import Mathlib

/-!
Verification of the quadrant classification engine of the Eisenhower-matrix
task application (`backend-ai/main.cpp`).

The embedding models the C++ `TaskClassifier` and `ClassificationController`
over exact rational arithmetic:

* vectors of `float` become `List ℚ`;
* IEEE-754 results that the code can actually produce are modelled by
  `CFloat`, which distinguishes NaN and the two infinities from finite
  values (needed because `cosine_similarity` divides without a zero-norm
  guard);
* the `sqrtf` calls are abstracted by a function parameter, since only
  the zero-ness of `sqrt` matters for the claims under study;
* the neural embedding produced by the ONNX session is abstracted by a
  function parameter `embed : String → List ℚ`, with the empty list
  standing for the failure result of `generate_embedding`;
* the in-process similarity used by `find_similar_examples_local` is
  abstracted by a parameter `simf`, since the retrieval contract
  (filtering, sorting, truncation) is independent of similarity values.
-/

/-- Result of a floating-point computation: NaN, ±∞ or a finite value
(modelled as an exact rational). -/
inductive CFloat where
  | nan : CFloat
  | posinf : CFloat
  | neginf : CFloat
  | val : ℚ → CFloat
deriving DecidableEq

/-- IEEE-754 division on finite operands: a zero denominator produces
NaN (0/0) or a signed infinity (x/0, x ≠ 0) instead of a finite value. -/
def qdiv (x y : ℚ) : CFloat :=
  if y = 0 then
    (if x = 0 then CFloat.nan else if 0 < x then CFloat.posinf else CFloat.neginf)
  else CFloat.val (x / y)

/-- dot product accumulated by the loop of `cosine_similarity`
(main.cpp 243-247). -/
def dotProd (a b : List ℚ) : ℚ := (List.zipWith (fun x y => x * y) a b).sum

/-- sum of squares accumulated by the loop of `cosine_similarity`
(`norm_a` resp. `norm_b` before the square root is taken). -/
def normSq (a : List ℚ) : ℚ := (a.map (fun x => x * x)).sum

/-- Embedding of `TaskClassifier::cosine_similarity` (main.cpp 237-250).
The only guard in the source is the size-mismatch check returning `0.0f`;
the final statement divides `dot` by `sqrt(norm_a) * sqrt(norm_b)`
unconditionally.  `sqrt` is passed as a parameter standing for `sqrtf`;
any stand-in with `sqrt 0 = 0` and `sqrt x ≠ 0` for `x > 0` reproduces
the zero-ness behaviour of the real square root on the reachable
(nonnegative) arguments. -/
def cosine_similarity (sqrt : ℚ → ℚ) (a b : List ℚ) : CFloat :=
  if a.length ≠ b.length then CFloat.val 0
  else qdiv (dotProd a b) (sqrt (normSq a) * sqrt (normSq b))

/-- C1: the claim says `similarity` returns 0 for zero-norm inputs and
never NaN.  The code has no zero-norm guard: at `a = [0, 0]`,
`b = [1, 1]` (equal lengths, `a` of zero norm) the computed value is
`0 / (sqrt 0 * sqrt 2) = 0 / 0`, i.e. IEEE NaN, not 0. -/
theorem cosine_zero_norm_nan :
    normSq [(0 : ℚ), 0] = 0
  ∧ List.length [(0 : ℚ), 0] = List.length [(1 : ℚ), 1]
  ∧ cosine_similarity (fun x => x) [(0 : ℚ), 0] [(1 : ℚ), 1] = CFloat.nan := by
  refine ⟨by norm_num [normSq], rfl, ?_⟩
  norm_num [cosine_similarity, qdiv, dotProd, normSq]

/-- The cached training data of `TaskClassifier` (main.cpp 48-50): the
parallel vectors `training_texts_` and `training_labels_`, filled in
lock-step by `load_training_data` (main.cpp 148-151). -/
structure Corpus where
  texts : List String
  labels : List Int

/-- Embedding of the neighbor-label lookup inside `classify_task`
(main.cpp 267-270): `std::find` over `training_texts_` locates the FIRST
occurrence of the text, and the label at the same index is read from
`training_labels_`.  The two lists are walked in lock-step; running out
of labels (impossible under the loader's length invariant, undefined
behaviour in C++) yields `none`, i.e. no vote. -/
def lookupLabel : List String → List Int → String → Option Int
  | [], _, _ => none
  | _ :: _, [], _ => none
  | t :: ts, l :: ls, text => if t = text then some l else lookupLabel ts ls text

/-- The label a corpus text votes with (defaulting to 0; only used under
the hypothesis that the lookup succeeds). -/
def labelOf (c : Corpus) (text : String) : Int :=
  (lookupLabel c.texts c.labels text).getD 0

/-- Embedding of `quadrant_scores[q] += w` on a `std::unordered_map`
(main.cpp 271): add `w` to the entry of key `q`, default-inserting the
entry at value 0 first when the key is absent. -/
def bump : List (Int × ℚ) → Int → ℚ → List (Int × ℚ)
  | [], k, v => [(k, v)]
  | (k0, v0) :: rest, k, v =>
      if k0 = k then (k0, v0 + v) :: rest else (k0, v0) :: bump rest k v

/-- The score stored in the tally for quadrant `q` (0 when absent). -/
def scoreOf : List (Int × ℚ) → Int → ℚ
  | [], _ => 0
  | (k0, v0) :: rest, q => if k0 = q then v0 else scoreOf rest q

/-- One iteration of the vote loop of `classify_task` (main.cpp 265-274):
resolve the neighbor's label by text lookup; on success add
`similarity * 0.6` both to that quadrant's score and to `total_weight`;
on failure leave the accumulator untouched. -/
def voteStep (c : Corpus) (acc : List (Int × ℚ) × ℚ) (p : String × ℚ) :
    List (Int × ℚ) × ℚ :=
  match lookupLabel c.texts c.labels p.1 with
  | none => acc
  | some q => (bump acc.1 q (p.2 * ((6 : ℚ) / 10)), acc.2 + p.2 * ((6 : ℚ) / 10))

/-- The vote tally of `classify_task` (main.cpp 256-274): scores start as
`{0 ↦ 1.0}` (the base/fallback vote) and `total_weight` starts at `1.0`;
then every retrieved neighbor is processed by `voteStep`. -/
def tallyVotes (c : Corpus) (neighbors : List (String × ℚ)) :
    List (Int × ℚ) × ℚ :=
  neighbors.foldl (voteStep c) ([(0, 1)], 1)

/-- One iteration of the argmax loop of `classify_task` (main.cpp
280-286): keep the incumbent unless the candidate's normalized score is
strictly greater. -/
def bestStep (total : ℚ) (best p : Int × ℚ) : Int × ℚ :=
  if best.2 < p.2 / total then (p.1, p.2 / total) else best

/-- The argmax loop of `classify_task` (main.cpp 277-286): iterate over
the tally starting from `best_quadrant = 0`, `best_score = 0.0`. -/
def bestOf (scores : List (Int × ℚ)) (total : ℚ) : Int × ℚ :=
  scores.foldl (bestStep total) (0, 0)

/-- Embedding of `TaskClassifier::classify_task` after retrieval
(main.cpp 252-289), returning both the winning quadrant and the winning
normalized score (`best_score`, the confidence). -/
def classify_full (c : Corpus) (neighbors : List (String × ℚ)) : Int × ℚ :=
  bestOf (tallyVotes c neighbors).1 (tallyVotes c neighbors).2

/-- The value `classify_task` actually returns (the quadrant id only). -/
def classify_task (c : Corpus) (neighbors : List (String × ℚ)) : Int :=
  (classify_full c neighbors).1

/-- Descending order on (text, similarity) pairs: the comparator
`a.second > b.second` passed to `std::sort` (main.cpp 227-228), read as
the corresponding non-strict sortedness relation. -/
def simDesc (a b : String × ℚ) : Prop := b.2 ≤ a.2

instance : DecidableRel simDesc := fun a b => inferInstanceAs (Decidable (b.2 ≤ a.2))

instance : IsTotal (String × ℚ) simDesc := ⟨fun a b => le_total b.2 a.2⟩

instance : IsTrans (String × ℚ) simDesc := ⟨fun _ _ _ h1 h2 => le_trans h2 h1⟩

/-- Embedding of `TaskClassifier::find_similar_examples_local`
(main.cpp 203-235).  `embed` abstracts `generate_embedding` (the empty
list is its failure result), `simf` abstracts the similarity value
computed for a pair of embeddings.  An empty query embedding returns the
empty list at once; otherwise every training text is scored, entries
with similarity not above `0.3` are dropped, the rest are sorted
descending by similarity and truncated to `max_similar = 5`. -/
def find_similar_local (simf : List ℚ → List ℚ → ℚ) (embed : String → List ℚ)
    (c : Corpus) (query : String) : List (String × ℚ) :=
  if embed query = [] then []
  else
    (List.insertionSort simDesc
      (c.texts.filterMap (fun t =>
        if (3 : ℚ) / 10 < simf (embed query) (embed t) then
          some (t, simf (embed query) (embed t))
        else none))).take 5

/-- The local classification pipeline: retrieval (local path) followed by
vote aggregation. -/
def classify_local (simf : List ℚ → List ℚ → ℚ) (embed : String → List ℚ)
    (c : Corpus) (query : String) : Int × ℚ :=
  classify_full c (find_similar_local simf embed c query)

/-- Embedding of `TaskClassifier::get_quadrant_name` (main.cpp 291-299). -/
def get_quadrant_name (q : Int) : String :=
  if q = 0 then "Zrób Teraz (Pilne + Ważne)"
  else if q = 1 then "Zaplanuj (Pilne, nie ważne)"
  else if q = 2 then "Deleguj (Ważne, nie pilne)"
  else if q = 3 then "Usuń (Nie ważne, nie pilne)"
  else "Nieznany"

/-- `urgent` as derived in the HTTP handler (main.cpp 348). -/
def urgentOf (q : Int) : Bool := q == 0 || q == 1

/-- `important` as derived in the HTTP handler (main.cpp 349). -/
def importantOf (q : Int) : Bool := q == 0 || q == 2

/-- JSON values appearing in the classify response. -/
inductive JVal where
  | str : String → JVal
  | bool : Bool → JVal
  | int : Int → JVal
deriving DecidableEq

/-- The JSON object built by `ClassificationController` on success
(main.cpp 351-358), as the ordered list of its fields. -/
def classifyResponse (task : String) (quadrant : Int) (qname : String) :
    List (String × JVal) :=
  [("task", JVal.str task),
   ("urgent", JVal.bool (urgentOf quadrant)),
   ("important", JVal.bool (importantOf quadrant)),
   ("quadrant", JVal.int quadrant),
   ("quadrant_name", JVal.str qname),
   ("method", JVal.str "C++ RAG Classifier"),
   ("performance", JVal.str "High-throughput")]

/-- The task text extracted by the handler's guard (main.cpp 326-334):
`none` when the body is absent, has no "task" member, the member is not
a string, or the string is empty — exactly the cases the guard rejects. -/
def taskOf (body : Option (List (String × JVal))) : Option String :=
  match body with
  | none => none
  | some fields =>
      match fields.lookup "task" with
      | some (JVal.str s) => if s = "" then none else some s
      | _ => none

/-- Outcome of the HTTP handler: a client error or a JSON response. -/
inductive HandlerResult where
  | clientError : Nat → String → HandlerResult
  | ok : List (String × JVal) → HandlerResult
deriving DecidableEq

/-- Embedding of `ClassificationController::asyncHandleHttpRequest`
(main.cpp 323-362): reject invalid bodies with a 400 error, otherwise
classify and build the response.  The classifier is a parameter so that
non-invocation on the error path is expressible. -/
def handleClassify (classifier : String → Int)
    (body : Option (List (String × JVal))) : HandlerResult :=
  match taskOf body with
  | none => HandlerResult.clientError 400 "Missing task field"
  | some task =>
      HandlerResult.ok
        (classifyResponse task (classifier task) (get_quadrant_name (classifier task)))

/-- Concrete embedding provider that always fails (returns the empty
vector, as `generate_embedding` does on error). -/
def embedFail : String → List ℚ := fun _ => []

/-- Concrete embedding provider that always succeeds. -/
def embedUnit : String → List ℚ := fun _ => [1]

/-- Concrete similarity function with constant value 1. -/
def simfOne : List ℚ → List ℚ → ℚ := fun _ _ => 1

/-- Concrete one-example corpus. -/
def corpusC3 : Corpus := ⟨["fix bug"], [0]⟩

/-- The empty corpus. -/
def corpusEmpty : Corpus := ⟨[], []⟩

/-- Corpus with a duplicated text carrying two different labels. -/
def cDup : Corpus := ⟨["a", "a"], [1, 2]⟩

/-- Concrete two-example corpus for the voting witness. -/
def cW : Corpus := ⟨["aa", "bb"], [1, 2]⟩

/-- Concrete neighbor list for the voting witness. -/
def nsW : List (String × ℚ) := [("aa", (1 : ℚ) / 2), ("bb", (2 : ℚ) / 5)]

/-- Concrete classifier stub used by the handler witness. -/
def cl0 : String → Int := fun _ => 0

theorem lookupLabel_not_mem :
    ∀ (ts : List String) (ls : List Int) (text : String),
      text ∉ ts → lookupLabel ts ls text = none
  | [], _, _, _ => rfl
  | _ :: _, [], _, _ => rfl
  | t :: ts, _ :: ls, text, h => by
      have ht : ¬(t = text) := fun e => h (e ▸ List.mem_cons_self t ts)
      simp only [lookupLabel, ht, if_false]
      exact lookupLabel_not_mem ts ls text (fun hm => h (List.mem_cons_of_mem t hm))

theorem lookupLabel_first :
    ∀ (ts : List String) (ls : List Int) (text : String) (i : Nat),
      (∀ j, j < i → ts[j]? ≠ some text) → ts[i]? = some text →
      lookupLabel ts ls text = ls[i]?
  | [], _, _, i, _, h2 => by simp at h2
  | t :: ts, ls, text, 0, _, h2 => by
      have ht : t = text := by simpa using h2
      cases ls with
      | nil => simp [lookupLabel]
      | cons l ls => simp [lookupLabel, ht]
  | t :: ts, ls, text, i + 1, h1, h2 => by
      have ht : ¬(t = text) := by
        have := h1 0 (Nat.succ_pos i)
        simpa using this
      cases ls with
      | nil => simp [lookupLabel]
      | cons l ls =>
          simp only [lookupLabel, ht, if_false, List.getElem?_cons_succ]
          exact lookupLabel_first ts ls text i
            (fun j hj => by simpa using h1 (j + 1) (Nat.succ_lt_succ hj))
            (by simpa using h2)

/-- C10: inside `classify_task` a neighbor's vote is resolved by text
lookup against the training corpus: a text absent from the corpus
contributes nothing to the scores or to `total_weight`; a text present
in the corpus votes with the label of its FIRST occurrence (so duplicate
texts with different labels all vote with the first occurrence's label),
adding `similarity * 0.6` to that quadrant's score and to
`total_weight`. -/
theorem neighbor_vote_resolution (c : Corpus) (text : String) (s : ℚ)
    (acc : List (Int × ℚ) × ℚ) :
    (text ∉ c.texts → voteStep c acc (text, s) = acc)
  ∧ (∀ i : Nat, (∀ j, j < i → c.texts[j]? ≠ some text) → c.texts[i]? = some text →
      lookupLabel c.texts c.labels text = c.labels[i]?)
  ∧ (∀ q : Int, lookupLabel c.texts c.labels text = some q →
      voteStep c acc (text, s) = (bump acc.1 q (s * ((6 : ℚ) / 10)), acc.2 + s * ((6 : ℚ) / 10))) := by
  refine ⟨fun h => ?_, fun i h1 h2 => lookupLabel_first c.texts c.labels text i h1 h2, fun q h => ?_⟩
  · simp [voteStep, lookupLabel_not_mem c.texts c.labels text h]
  · simp [voteStep, h]

theorem neighbor_vote_resolution_witness :
    lookupLabel cDup.texts cDup.labels "a" = some 1
  ∧ voteStep cDup ([(0, 1)], 1) ("zzz", 2) = ([(0, 1)], 1) := by
  constructor
  · exact ((neighbor_vote_resolution cDup "a" 1 ([(0, 1)], 1)).2.1 0
      (fun j hj => absurd hj (Nat.not_lt_zero j)) rfl).trans rfl
  · exact (neighbor_vote_resolution cDup "zzz" 2 ([(0, 1)], 1)).1 (by decide)

theorem scoreOf_bump (k : Int) (v : ℚ) :
    ∀ (m : List (Int × ℚ)) (q : Int),
      scoreOf (bump m k v) q = scoreOf m q + (if q = k then v else 0)
  | [], q => by
      simp only [bump, scoreOf]
      by_cases h : k = q
      · subst h; simp
      · rw [if_neg h, if_neg (fun e => h e.symm)]; simp
  | (k0, v0) :: rest, q => by
      by_cases hk : k0 = k
      · subst hk
        simp only [bump, eq_self_iff_true, if_true, scoreOf]
        by_cases hq : k0 = q
        · subst hq; simp
        · rw [if_neg hq, if_neg hq, if_neg (fun e => hq e.symm)]; simp
      · simp only [bump, if_neg hk, scoreOf]
        by_cases hq : k0 = q
        · subst hq
          rw [if_pos rfl, if_pos rfl, if_neg hk]; simp
        · rw [if_neg hq, if_neg hq, scoreOf_bump k v rest q]

theorem mem_bump :
    ∀ (m : List (Int × ℚ)) (k : Int) (v : ℚ) (x : Int × ℚ),
      x ∈ bump m k v →
        x ∈ m ∨ (∃ v0, (k, v0) ∈ m ∧ x = (k, v0 + v)) ∨ x = (k, v)
  | [], k, v, x, hx => by
      simp only [bump, List.mem_singleton] at hx
      exact Or.inr (Or.inr hx)
  | (k0, v0) :: rest, k, v, x, hx => by
      by_cases hk : k0 = k
      · subst hk
        simp only [bump, eq_self_iff_true, if_true, List.mem_cons] at hx
        rcases hx with h | h
        · exact Or.inr (Or.inl ⟨v0, List.mem_cons_self _ _, h⟩)
        · exact Or.inl (List.mem_cons_of_mem _ h)
      · simp only [bump, if_neg hk, List.mem_cons] at hx
        rcases hx with h | h
        · exact Or.inl (h ▸ List.mem_cons_self _ _)
        · rcases mem_bump rest k v x h with h1 | ⟨v1, hv1, he⟩ | he
          · exact Or.inl (List.mem_cons_of_mem _ h1)
          · exact Or.inr (Or.inl ⟨v1, List.mem_cons_of_mem _ hv1, he⟩)
          · exact Or.inr (Or.inr he)

theorem bump_exists_ge :
    ∀ (m : List (Int × ℚ)) (k0 k : Int) (v b : ℚ),
      0 ≤ v → (∃ v0, (k0, v0) ∈ m ∧ b ≤ v0) →
      ∃ v1, (k0, v1) ∈ bump m k v ∧ b ≤ v1
  | [], _, _, _, _, _, ⟨_, h0, _⟩ => absurd h0 (List.not_mem_nil _)
  | (ka, va) :: rest, k0, k, v, b, hv, ⟨v0, h0, hb⟩ => by
      by_cases hk : ka = k
      · subst hk
        rcases List.mem_cons.mp h0 with he | hr
        · obtain ⟨hke, hve⟩ := Prod.mk.injEq .. ▸ he
          refine ⟨va + v, ?_, ?_⟩
          · simp only [bump, eq_self_iff_true, if_true]
            exact hke ▸ List.mem_cons_self _ _
          · have : b ≤ va := hve ▸ hb
            linarith
        · refine ⟨v0, ?_, hb⟩
          simp only [bump, eq_self_iff_true, if_true]
          exact List.mem_cons_of_mem _ hr
      · rcases List.mem_cons.mp h0 with he | hr
        · refine ⟨v0, ?_, hb⟩
          simp only [bump, if_neg hk]
          exact he ▸ List.mem_cons_self _ _
        · rcases bump_exists_ge rest k0 k v b hv ⟨v0, hr, hb⟩ with ⟨v1, h1, hb1⟩
          refine ⟨v1, ?_, hb1⟩
          simp only [bump, if_neg hk]
          exact List.mem_cons_of_mem _ h1

theorem tally_inv (c : Corpus) :
    ∀ (ns : List (String × ℚ)) (acc : List (Int × ℚ) × ℚ),
      (∀ p ∈ ns, 0 ≤ p.2) → (∀ p ∈ acc.1, p.2 ≤ acc.2) → 0 ≤ acc.2 →
      (∀ p ∈ (ns.foldl (voteStep c) acc).1, p.2 ≤ (ns.foldl (voteStep c) acc).2)
      ∧ acc.2 ≤ (ns.foldl (voteStep c) acc).2
  | [], acc, _, h1, _ => ⟨h1, le_refl _⟩
  | p :: rest, acc, hs, h1, h2 => by
      have hp : 0 ≤ p.2 := hs p (List.mem_cons_self _ _)
      have hrest : ∀ x ∈ rest, 0 ≤ x.2 := fun x hx => hs x (List.mem_cons_of_mem _ hx)
      simp only [List.foldl_cons]
      rcases hq : lookupLabel c.texts c.labels p.1 with _ | q
      · have hstep : voteStep c acc p = acc := by simp [voteStep, hq]
        rw [hstep]
        exact tally_inv c rest acc hrest h1 h2
      · have hw : 0 ≤ p.2 * ((6 : ℚ) / 10) := by positivity
        have hstep : voteStep c acc p =
            (bump acc.1 q (p.2 * ((6 : ℚ) / 10)), acc.2 + p.2 * ((6 : ℚ) / 10)) := by
          simp [voteStep, hq]
        rw [hstep]
        have hb1 : ∀ x ∈ bump acc.1 q (p.2 * ((6 : ℚ) / 10)),
            x.2 ≤ acc.2 + p.2 * ((6 : ℚ) / 10) := by
          intro x hx
          rcases mem_bump acc.1 q (p.2 * ((6 : ℚ) / 10)) x hx with h | ⟨v0, hv0, he⟩ | he
          · exact le_trans (h1 x h) (by linarith)
          · have := h1 _ hv0
            rw [he]; simp only []; linarith
          · rw [he]; simp only []; linarith
        have hb2 : 0 ≤ acc.2 + p.2 * ((6 : ℚ) / 10) := by linarith
        obtain ⟨ih1, ih2⟩ := tally_inv c rest
          (bump acc.1 q (p.2 * ((6 : ℚ) / 10)), acc.2 + p.2 * ((6 : ℚ) / 10))
          hrest hb1 hb2
        exact ⟨ih1, le_trans (by linarith) ih2⟩

theorem tally_exists0 (c : Corpus) :
    ∀ (ns : List (String × ℚ)) (acc : List (Int × ℚ) × ℚ),
      (∀ p ∈ ns, 0 ≤ p.2) → (∃ v, (0, v) ∈ acc.1 ∧ (1 : ℚ) ≤ v) →
      ∃ v, (0, v) ∈ (ns.foldl (voteStep c) acc).1 ∧ 1 ≤ v
  | [], _, _, h0 => h0
  | p :: rest, acc, hs, h0 => by
      have hp : 0 ≤ p.2 := hs p (List.mem_cons_self _ _)
      have hrest : ∀ x ∈ rest, 0 ≤ x.2 := fun x hx => hs x (List.mem_cons_of_mem _ hx)
      simp only [List.foldl_cons]
      rcases hq : lookupLabel c.texts c.labels p.1 with _ | q
      · have hstep : voteStep c acc p = acc := by simp [voteStep, hq]
        rw [hstep]
        exact tally_exists0 c rest acc hrest h0
      · have hw : 0 ≤ p.2 * ((6 : ℚ) / 10) := by positivity
        have hstep : voteStep c acc p =
            (bump acc.1 q (p.2 * ((6 : ℚ) / 10)), acc.2 + p.2 * ((6 : ℚ) / 10)) := by
          simp [voteStep, hq]
        rw [hstep]
        exact tally_exists0 c rest
          (bump acc.1 q (p.2 * ((6 : ℚ) / 10)), acc.2 + p.2 * ((6 : ℚ) / 10)) hrest
          (bump_exists_ge acc.1 0 q (p.2 * ((6 : ℚ) / 10)) 1 hw h0)

theorem tally_total (c : Corpus) :
    ∀ (ns : List (String × ℚ)) (acc : List (Int × ℚ) × ℚ),
      (∀ p ∈ ns, (lookupLabel c.texts c.labels p.1).isSome = true) →
      (ns.foldl (voteStep c) acc).2 =
        acc.2 + ((ns.map (fun p => p.2 * ((6 : ℚ) / 10))).sum)
  | [], acc, _ => by simp
  | p :: rest, acc, hf => by
      obtain ⟨q, hq⟩ := Option.isSome_iff_exists.mp (hf p (List.mem_cons_self _ _))
      have hstep : voteStep c acc p =
          (bump acc.1 q (p.2 * ((6 : ℚ) / 10)), acc.2 + p.2 * ((6 : ℚ) / 10)) := by
        simp [voteStep, hq]
      simp only [List.foldl_cons, hstep, List.map_cons, List.sum_cons]
      rw [tally_total c rest _ (fun x hx => hf x (List.mem_cons_of_mem _ hx))]
      ring

theorem tally_score (c : Corpus) (q : Int) :
    ∀ (ns : List (String × ℚ)) (acc : List (Int × ℚ) × ℚ),
      (∀ p ∈ ns, (lookupLabel c.texts c.labels p.1).isSome = true) →
      scoreOf (ns.foldl (voteStep c) acc).1 q =
        scoreOf acc.1 q +
          ((ns.filter (fun p => labelOf c p.1 == q)).map
            (fun p => p.2 * ((6 : ℚ) / 10))).sum
  | [], acc, _ => by simp
  | p :: rest, acc, hf => by
      obtain ⟨q0, hq0⟩ := Option.isSome_iff_exists.mp (hf p (List.mem_cons_self _ _))
      have hlab : labelOf c p.1 = q0 := by simp [labelOf, hq0]
      have hstep : voteStep c acc p =
          (bump acc.1 q0 (p.2 * ((6 : ℚ) / 10)), acc.2 + p.2 * ((6 : ℚ) / 10)) := by
        simp [voteStep, hq0]
      simp only [List.foldl_cons, hstep, List.filter_cons]
      rw [tally_score c q rest _ (fun x hx => hf x (List.mem_cons_of_mem _ hx)),
        scoreOf_bump]
      by_cases hqq : q0 = q
      · subst hqq
        simp only [hlab, beq_self_eq_true, if_true, List.map_cons, List.sum_cons,
          eq_self_iff_true]
        ring
      · have hbeq : (labelOf c p.1 == q) = false := by
          simp [hlab, hqq]
        simp only [hbeq, Bool.false_eq_true, if_false]
        rw [if_neg (fun e => hqq e.symm)]
        ring

theorem bestFold (total : ℚ) :
    ∀ (l : List (Int × ℚ)) (init : Int × ℚ),
      init.2 ≤ (l.foldl (bestStep total) init).2
    ∧ (∀ p ∈ l, p.2 / total ≤ (l.foldl (bestStep total) init).2)
    ∧ ((l.foldl (bestStep total) init) = init ∨
        ∃ p ∈ l, (l.foldl (bestStep total) init) = (p.1, p.2 / total))
  | [], init => ⟨le_refl _, by simp, Or.inl rfl⟩
  | p :: rest, init => by
      simp only [List.foldl_cons]
      obtain ⟨ih1, ih2, ih3⟩ := bestFold total rest (bestStep total init p)
      have hstep : init.2 ≤ (bestStep total init p).2 := by
        by_cases h : init.2 < p.2 / total
        · simp only [bestStep, if_pos h]; exact le_of_lt h
        · simp only [bestStep, if_neg h]; exact le_refl _
      have hp : p.2 / total ≤ (bestStep total init p).2 := by
        by_cases h : init.2 < p.2 / total
        · simp only [bestStep, if_pos h]; exact le_refl _
        · simp only [bestStep, if_neg h]; exact le_of_not_lt h
      refine ⟨le_trans hstep ih1, ?_, ?_⟩
      · intro x hx
        rcases List.mem_cons.mp hx with he | hr
        · subst he; exact le_trans hp ih1
        · exact ih2 x hr
      · rcases ih3 with he | ⟨x, hx, he⟩
        · by_cases h : init.2 < p.2 / total
          · right
            refine ⟨p, List.mem_cons_self _ _, ?_⟩
            rw [he]; simp only [bestStep, if_pos h]
          · left
            rw [he]; simp only [bestStep, if_neg h]
        · right
          exact ⟨x, List.mem_cons_of_mem _ hx, he⟩

/-- C2: `classify_task` computes its result exactly by the claimed
algorithm.  For a corpus `c` and retrieved neighbors `ns` (each of whose
texts occurs in the corpus, so that "that neighbor's quadrant" is
defined, and each with similarity above the retrieval threshold 0.3):
the vote tally starts with weight 1.0 at quadrant 0 (DoNow) and
`total_weight` 1.0; each neighbor adds `similarity * 0.6` to its
quadrant's score and the same amount to `total_weight`; the returned
quadrant maximizes `score / total_weight` over the tally and the
returned confidence is that normalized maximum. -/
theorem classify_vote_algorithm (c : Corpus) (ns : List (String × ℚ))
    (hfound : ∀ p ∈ ns, (lookupLabel c.texts c.labels p.1).isSome = true)
    (hsim : ∀ p ∈ ns, (3 : ℚ) / 10 < p.2) :
    (tallyVotes c ns).2 = 1 + ((ns.map (fun p => p.2 * ((6 : ℚ) / 10))).sum)
  ∧ (∀ q : Int, scoreOf (tallyVotes c ns).1 q =
      (if q = 0 then 1 else 0) +
        ((ns.filter (fun p => labelOf c p.1 == q)).map
          (fun p => p.2 * ((6 : ℚ) / 10))).sum)
  ∧ (∀ p ∈ (tallyVotes c ns).1,
      p.2 / (tallyVotes c ns).2 ≤ (classify_full c ns).2)
  ∧ (∃ p ∈ (tallyVotes c ns).1,
      p.1 = (classify_full c ns).1
        ∧ p.2 / (tallyVotes c ns).2 = (classify_full c ns).2) := by
  have hnn : ∀ p ∈ ns, 0 ≤ p.2 := fun p hp => le_of_lt (lt_trans (by norm_num) (hsim p hp))
  have h1 : (tallyVotes c ns).2 = 1 + ((ns.map (fun p => p.2 * ((6 : ℚ) / 10))).sum) := by
    have := tally_total c ns ([(0, 1)], 1) hfound
    simpa [tallyVotes] using this
  have h2 : ∀ q : Int, scoreOf (tallyVotes c ns).1 q =
      (if q = 0 then 1 else 0) +
        ((ns.filter (fun p => labelOf c p.1 == q)).map
          (fun p => p.2 * ((6 : ℚ) / 10))).sum := by
    intro q
    have := tally_score c q ns ([(0, 1)], 1) hfound
    have hbase : scoreOf [((0 : Int), (1 : ℚ))] q = if q = 0 then 1 else 0 := by
      by_cases hq : q = 0
      · subst hq; simp [scoreOf]
      · have h0q : ¬((0 : Int) = q) := fun e => hq e.symm
        simp [scoreOf, h0q, hq]
    rw [tallyVotes]
    rw [this, hbase]
  have hinv := tally_inv c ns ([(0, 1)], 1) hnn (by simp) (by norm_num)
  have htot1 : (1 : ℚ) ≤ (tallyVotes c ns).2 := hinv.2
  have htotpos : (0 : ℚ) < (tallyVotes c ns).2 := lt_of_lt_of_le (by norm_num) htot1
  have hbf := bestFold (tallyVotes c ns).2 (tallyVotes c ns).1 (0, 0)
  have hcf : classify_full c ns =
      (tallyVotes c ns).1.foldl (bestStep (tallyVotes c ns).2) (0, 0) := rfl
  refine ⟨h1, h2, ?_, ?_⟩
  · intro p hp
    rw [hcf]
    exact hbf.2.1 p hp
  · obtain ⟨v, hv, hv1⟩ := tally_exists0 c ns ([(0, 1)], 1) hnn
      ⟨1, List.mem_cons_self _ _, le_refl _⟩
    have hvle : v / (tallyVotes c ns).2 ≤ (classify_full c ns).2 := by
      rw [hcf]; exact hbf.2.1 (0, v) hv
    have hvpos : 0 < v / (tallyVotes c ns).2 :=
      div_pos (lt_of_lt_of_le (by norm_num) hv1) htotpos
    have hres : 0 < (classify_full c ns).2 := lt_of_lt_of_le hvpos hvle
    rcases hbf.2.2 with he | ⟨p, hp, he⟩
    · exfalso
      rw [hcf] at hres
      rw [he] at hres
      exact lt_irrefl 0 hres
    · refine ⟨p, hp, ?_, ?_⟩
      · rw [hcf, he]
      · rw [hcf, he]

theorem classify_vote_algorithm_witness :
    ((∀ p ∈ nsW, (lookupLabel cW.texts cW.labels p.1).isSome = true)
      ∧ (∀ p ∈ nsW, (3 : ℚ) / 10 < p.2))
  ∧ ((tallyVotes cW nsW).2 = 1 + ((nsW.map (fun p => p.2 * ((6 : ℚ) / 10))).sum)
      ∧ (∀ q : Int, scoreOf (tallyVotes cW nsW).1 q =
          (if q = 0 then 1 else 0) +
            ((nsW.filter (fun p => labelOf cW p.1 == q)).map
              (fun p => p.2 * ((6 : ℚ) / 10))).sum)
      ∧ (∀ p ∈ (tallyVotes cW nsW).1,
          p.2 / (tallyVotes cW nsW).2 ≤ (classify_full cW nsW).2)
      ∧ (∃ p ∈ (tallyVotes cW nsW).1,
          p.1 = (classify_full cW nsW).1
            ∧ p.2 / (tallyVotes cW nsW).2 = (classify_full cW nsW).2)) :=
  ⟨⟨by decide, by norm_num [nsW]⟩,
    classify_vote_algorithm cW nsW (by decide) (by norm_num [nsW])⟩

theorem find_similar_sims (simf : List ℚ → List ℚ → ℚ) (embed : String → List ℚ)
    (c : Corpus) (query : String) :
    ∀ p ∈ find_similar_local simf embed c query, (3 : ℚ) / 10 < p.2 := by
  intro p hp
  by_cases he : embed query = []
  · simp [find_similar_local, he] at hp
  · rw [find_similar_local, if_neg he] at hp
    have hp2 := List.take_subset 5 _ hp
    rw [(List.perm_insertionSort simDesc _).mem_iff] at hp2
    obtain ⟨t, _, hcond⟩ := List.mem_filterMap.mp hp2
    by_cases hc : (3 : ℚ) / 10 < simf (embed query) (embed t)
    · rw [if_pos hc] at hcond
      obtain he2 := Option.some.inj hcond
      rw [← he2]
      exact hc
    · rw [if_neg hc] at hcond
      exact absurd hcond (Option.noConfusion)

theorem find_similar_len (simf : List ℚ → List ℚ → ℚ) (embed : String → List ℚ)
    (c : Corpus) (query : String) :
    (find_similar_local simf embed c query).length ≤ 5 := by
  by_cases he : embed query = []
  · simp [find_similar_local, he]
  · rw [find_similar_local, if_neg he]
    exact List.length_take_le 5 _

theorem find_similar_sorted (simf : List ℚ → List ℚ → ℚ) (embed : String → List ℚ)
    (c : Corpus) (query : String) :
    List.Sorted simDesc (find_similar_local simf embed c query) := by
  by_cases he : embed query = []
  · simp [find_similar_local, he]
  · rw [find_similar_local, if_neg he]
    exact (List.sorted_insertionSort simDesc _).sublist (List.take_sublist 5 _)

/-- C6: the local retrieval returns a sequence sorted descending by
similarity, with at most `k = 5` entries, every entry having similarity
strictly greater than the 0.3 threshold. -/
theorem find_similar_contract (simf : List ℚ → List ℚ → ℚ) (embed : String → List ℚ)
    (c : Corpus) (query : String) :
    (find_similar_local simf embed c query).length ≤ 5
  ∧ List.Sorted simDesc (find_similar_local simf embed c query)
  ∧ ∀ p ∈ find_similar_local simf embed c query, (3 : ℚ) / 10 < p.2 :=
  ⟨find_similar_len simf embed c query, find_similar_sorted simf embed c query,
    find_similar_sims simf embed c query⟩

/-- C7: for every input text (and any similarity/embedding providers and
any corpus), the confidence computed by the local classification
pipeline — the normalized maximum vote score `score / total_weight` —
lies in the closed interval [0, 1]. -/
theorem confidence_bounds (simf : List ℚ → List ℚ → ℚ) (embed : String → List ℚ)
    (c : Corpus) (query : String) :
    0 ≤ (classify_local simf embed c query).2
  ∧ (classify_local simf embed c query).2 ≤ 1 := by
  have hnn : ∀ p ∈ find_similar_local simf embed c query, 0 ≤ p.2 := fun p hp =>
    le_of_lt (lt_trans (by norm_num) (find_similar_sims simf embed c query p hp))
  have hinv := tally_inv c (find_similar_local simf embed c query) ([(0, 1)], 1)
    hnn (by simp) (by norm_num)
  have htot1 : (1 : ℚ) ≤ (tallyVotes c (find_similar_local simf embed c query)).2 :=
    hinv.2
  have htotpos : (0 : ℚ) < (tallyVotes c (find_similar_local simf embed c query)).2 :=
    lt_of_lt_of_le (by norm_num) htot1
  have hbf := bestFold (tallyVotes c (find_similar_local simf embed c query)).2
    (tallyVotes c (find_similar_local simf embed c query)).1 (0, 0)
  have hcf : classify_local simf embed c query =
      (tallyVotes c (find_similar_local simf embed c query)).1.foldl
        (bestStep (tallyVotes c (find_similar_local simf embed c query)).2) (0, 0) := rfl
  constructor
  · rw [hcf]
    exact hbf.1
  · rw [hcf]
    rcases hbf.2.2 with he | ⟨p, hp, he⟩
    · rw [he]
      norm_num
    · rw [he]
      exact (div_le_one htotpos).mpr (hinv.1 p hp)

/-- C5: with an empty training corpus, `classify` still returns a result:
quadrant 0 (DoNow) with confidence 1.0, since only the base vote with
total weight 1.0 contributes. -/
theorem empty_corpus_classify (simf : List ℚ → List ℚ → ℚ) (embed : String → List ℚ)
    (c : Corpus) (query : String) (h : c.texts = []) :
    classify_local simf embed c query = (0, 1) := by
  have hfs : find_similar_local simf embed c query = [] := by
    by_cases he : embed query = []
    · simp [find_similar_local, he]
    · simp [find_similar_local, he, h]
  rw [classify_local, hfs]
  show bestOf (tallyVotes c []).1 (tallyVotes c []).2 = (0, 1)
  have ht : tallyVotes c [] = ([(0, 1)], 1) := rfl
  rw [ht]
  show bestStep 1 (0, 0) (0, 1) = (0, 1)
  rw [bestStep]
  norm_num

theorem empty_corpus_classify_witness :
    corpusEmpty.texts = [] ∧ classify_local simfOne embedUnit corpusEmpty "x" = (0, 1) :=
  ⟨rfl, empty_corpus_classify simfOne embedUnit corpusEmpty "x" rfl⟩

/-- C3 (corrected): when the embedding provider fails for the query
(`generate_embedding` returns the empty vector), the local retrieval
silently returns the empty neighbor sequence — no error is surfaced, so
callers cannot distinguish "no matches" from "could not embed query". -/
theorem retrieval_empty_embed_returns_empty (simf : List ℚ → List ℚ → ℚ)
    (embed : String → List ℚ) (c : Corpus) (query : String)
    (h : embed query = []) :
    find_similar_local simf embed c query = [] := by
  simp [find_similar_local, h]

theorem retrieval_empty_embed_witness :
    embedFail "x" = [] ∧ find_similar_local simfOne embedFail corpusC3 "x" = [] :=
  ⟨rfl, retrieval_empty_embed_returns_empty simfOne embedFail corpusC3 "x" rfl⟩

/-- C3 counterexample: a concrete corpus with a matching example; with a
failing embedding provider the retrieval returns the empty sequence (the
very thing the claim says is never done silently), indistinguishable
from the no-match outcome, while the same corpus with a working provider
produces a neighbor. -/
theorem retrieval_silent_empty_cex :
    embedFail "urgent task" = []
  ∧ find_similar_local simfOne embedFail corpusC3 "urgent task" = []
  ∧ find_similar_local simfOne embedUnit corpusC3 "urgent task" = [("fix bug", 1)] := by
  refine ⟨rfl, rfl, ?_⟩
  norm_num [find_similar_local, embedUnit, simfOne, corpusC3, List.insertionSort]

/-- C4 counterexample: at a concrete successful classification the
response object contains no `confidence`, `engine` or `latency_ms`
field, refuting the claimed exact field set. -/
theorem response_fields_cex :
    "confidence" ∉ (classifyResponse "t" 0 (get_quadrant_name 0)).map Prod.fst
  ∧ "engine" ∉ (classifyResponse "t" 0 (get_quadrant_name 0)).map Prod.fst
  ∧ "latency_ms" ∉ (classifyResponse "t" 0 (get_quadrant_name 0)).map Prod.fst := by
  decide

/-- C4 (corrected): for every successful classification request the JSON
response contains exactly the fields `task`, `urgent`, `important`,
`quadrant`, `quadrant_name`, `method` and `performance` (in this order);
there is no `confidence`, `engine` or `latency_ms` field. -/
theorem response_fields (task : String) (q : Int) (qn : String) :
    (classifyResponse task q qn).map Prod.fst =
      ["task", "urgent", "important", "quadrant", "quadrant_name", "method",
        "performance"] := rfl

/-- C8: the `urgent` and `important` booleans in the response are exactly
the derived view of the quadrant id: `urgent` holds iff the quadrant is
0 (DoNow) or 1 (Schedule), `important` holds iff it is 0 (DoNow) or 2
(Delegate). -/
theorem urgent_important_view (task qn : String) (q : Int) :
    ((classifyResponse task q qn).lookup "urgent" = some (JVal.bool (urgentOf q)))
  ∧ ((classifyResponse task q qn).lookup "important" = some (JVal.bool (importantOf q)))
  ∧ (urgentOf q = true ↔ (q = 0 ∨ q = 1))
  ∧ (importantOf q = true ↔ (q = 0 ∨ q = 2)) := by
  refine ⟨rfl, rfl, ?_, ?_⟩
  · simp [urgentOf]
  · simp [importantOf]

/-- C9: a request whose body is missing, has no task field, a non-string
task field or an empty task text is answered with a 400 client error
carrying an error message, and the classifier is never consulted (the
handler's outcome is the same for every classifier function). -/
theorem validation_rejects (cl : String → Int)
    (body : Option (List (String × JVal))) (h : taskOf body = none) :
    handleClassify cl body = HandlerResult.clientError 400 "Missing task field"
  ∧ ∀ cl2 : String → Int, handleClassify cl body = handleClassify cl2 body := by
  constructor
  · simp [handleClassify, h]
  · intro cl2
    simp [handleClassify, h]

theorem validation_rejects_witness :
    taskOf (some [("task", JVal.str "")]) = none
  ∧ (handleClassify cl0 (some [("task", JVal.str "")]) =
        HandlerResult.clientError 400 "Missing task field"
      ∧ ∀ cl2 : String → Int, handleClassify cl0 (some [("task", JVal.str "")]) =
          handleClassify cl2 (some [("task", JVal.str "")])) :=
  ⟨rfl, validation_rejects cl0 (some [("task", JVal.str "")]) rfl⟩
